import Mathlib

set_option maxRecDepth 100000

/-!
# Verification of the MZP tiles extraction library

Shallow embedding of `tools/_extract_mzp_tiles.py` (MZP Tiles Extraction
Library v1.4) and proofs about it.  Bytes are modelled as `Nat` (values
`< 256` where it matters), byte streams as `Nat → Nat` (byte at a given
offset) or `List Nat`, and Python exceptions as `Except`/`Option` results.
-/

namespace Mzp

/-! ## Header record (`MzpFile.extract_desc`, first 0x10 bytes)

`width, height, tile_width, tile_height, tile_x_count, tile_y_count,
bmp_type, bmp_depth, tile_crop = unpack('<HHHHHHHBB', ...)`. -/

structure Header where
  width : Nat
  height : Nat
  tileWidth : Nat
  tileHeight : Nat
  tileXCount : Nat
  tileYCount : Nat
  bmpType : Nat
  bmpDepth : Nat
  tileCrop : Nat

/-- `is_indexed_bitmap(bmp_info): return bmp_info == 0x01` -/
def is_indexed_bitmap (bmp_info : Nat) : Bool := bmp_info == 0x01

/-- The bitmap types accepted by `extract_desc`
(`if self.bmp_type not in [0x01, 0x03, 0x08, 0x0B, 0x0C]`). -/
def known_bmp_types : List Nat := [0x01, 0x03, 0x08, 0x0B, 0x0C]

/-- Errors `extract_desc` reports before calling `sys.exit(1)`. -/
inductive FormatError where
  | unknownType
  | unknownDepth
  | unsupportedPEH
deriving DecidableEq

/-- The `(bitmap_bpp, palette_count)` assignment for an indexed bitmap
(`extract_desc`, depth dispatch for `bmp_type == 0x01`). -/
def indexedPaletteCount (bmp_depth : Nat) : Option (Nat × Nat) :=
  if bmp_depth = 0x01 then some (8, 0x100)
  else if bmp_depth = 0x00 ∨ bmp_depth = 0x10 then some (4, 0x10)
  else if bmp_depth = 0x11 ∨ bmp_depth = 0x91 then some (8, 0x100)
  else none

/-- The `bitmap_bpp` outcome of `extract_desc`: either a fatal format error,
or `some bpp`, or `none` when the method returns *without ever assigning*
`self.bitmap_bpp` (the `bmp_type == 0x0C` branch has no `else` for an
unexpected depth and simply falls through). -/
def extract_desc_bpp (bmp_type bmp_depth : Nat) : Except FormatError (Option Nat) :=
  if bmp_type ∉ known_bmp_types then .error .unknownType
  else if is_indexed_bitmap bmp_type then
    match indexedPaletteCount bmp_depth with
    | some (bpp, _count) => .ok (some bpp)
    | none => .error .unknownDepth
  else if bmp_type = 0x08 then
    if bmp_depth = 0x14 then .ok (some 24) else .error .unknownDepth
  else if bmp_type = 0x0B then
    if bmp_depth = 0x14 then .ok (some 32) else .error .unknownDepth
  else if bmp_type = 0x0C then
    if bmp_depth = 0x11 then .ok (some 24) else .ok none
  else .error .unsupportedPEH

/-- `__init__`: `self.bytesprepx = self.bitmap_bpp // 8; if 0: = 1`.
When `bitmap_bpp` was never assigned (`none`), the attribute access
raises (`AttributeError`), modelled as `none`. -/
def initBytesPerPx (bitmap_bpp : Option Nat) : Option Nat :=
  match bitmap_bpp with
  | none => none
  | some bpp => some (if bpp / 8 = 0 then 1 else bpp / 8)

/-! ## Palette builder (`extract_desc`, indexed branch) -/

/-- Alpha remap applied to every raw palette alpha byte (lines 183-184 and
207-208): `a = (temp_a << 1) + (temp_a >> 6) if (temp_a < 0x80) else 255`. -/
def expandAlpha (temp_a : Nat) : Nat :=
  if temp_a < 0x80 then (temp_a <<< 1) + (temp_a >>> 6) else 255

/-- Byte offsets (relative to the palette start) of the successive palette
entries in the linear branch (`bmp_depth in [0x00, 0x10]`): the loop reads
4 sequential bytes per entry. -/
def linearByteOffsets (palette_count : Nat) : List Nat :=
  (List.range palette_count).map fun i => 4 * i

/-- Byte offsets (relative to `pal_start`) of the successive palette entries
in the RGBATim2 branch (`bmp_depth in [0x11, 0x91, 0x01]`):
`for h in range(palette_count*4 // 0x80): for i in range(2): for j in range(2):
seek(h*0x80 + (i + j*2)*0x20 + pal_start)`, then 8 entries of 4 bytes. -/
def swizzledByteOffsets (palette_count : Nat) : List Nat :=
  (List.range (palette_count * 4 / 0x80)).flatMap fun h =>
    (List.range 2).flatMap fun i =>
      (List.range 2).flatMap fun j =>
        (List.range 8).map fun k => h * 0x80 + (i + j * 2) * 0x20 + 4 * k

/-- The three accumulated palette strings of `MzpFile`:
`paletteblob` (b,g,r,a per entry), `palettepng` (r,g,b per entry) and
`transpng` (a per entry). -/
structure Palette where
  blob : List Nat
  png : List Nat
  trans : List Nat

/-- One palette-reading loop body applied along a list of entry offsets:
per entry the code reads `r`, `g`, `b`, raw alpha at consecutive offsets and
appends `b+g+r+a` to `paletteblob`, `r+g+b` to `palettepng`, `a` to
`transpng`. -/
def paletteOfOffsets (data : Nat → Nat) (offsets : List Nat) : Palette :=
  ⟨offsets.flatMap fun o =>
      [data (o + 2), data (o + 1), data o, expandAlpha (data (o + 3))],
    offsets.flatMap fun o => [data o, data (o + 1), data (o + 2)],
    offsets.map fun o => expandAlpha (data (o + 3))⟩

/-- The linear palette read (`bmp_depth in [0x00, 0x10]`). -/
def buildPaletteLinear (data : Nat → Nat) (palette_count : Nat) : Palette :=
  paletteOfOffsets data (linearByteOffsets palette_count)

/-- The RGBATim2 block read (`bmp_depth in [0x11, 0x91, 0x01]`). -/
def buildPaletteSwizzled (data : Nat → Nat) (palette_count : Nat) : Palette :=
  paletteOfOffsets data (swizzledByteOffsets palette_count)

/-- `for i in range(palette_count, 0x100)`: pad the three strings with
`b'\x00\x00\x00\xFF'`, `b'\x00\x00\x00'` and `b'\xFF'` per missing entry. -/
def padPalette (pal : Palette) (palette_count : Nat) : Palette :=
  ⟨pal.blob ++ (List.range (0x100 - palette_count)).flatMap fun _ => [0, 0, 0, 255],
    pal.png ++ (List.range (0x100 - palette_count)).flatMap fun _ => [0, 0, 0],
    pal.trans ++ (List.range (0x100 - palette_count)).map fun _ => 255⟩

/-- The whole palette construction for an indexed bitmap (`bmp_type == 0x01`):
depth dispatch for `palette_count`, then the read-order dispatch
(`if bmp_depth in [0x00, 0x10]` linear, `elif bmp_depth in [0x11, 0x91, 0x01]`
block order), then the padding loop.  `none` models the fatal error paths. -/
def buildPalette (bmp_depth : Nat) (data : Nat → Nat) : Option Palette :=
  match indexedPaletteCount bmp_depth with
  | none => none
  | some (_bpp, count) =>
    if bmp_depth = 0x00 ∨ bmp_depth = 0x10 then
      some (padPalette (buildPaletteLinear data count) count)
    else if bmp_depth = 0x11 ∨ bmp_depth = 0x91 ∨ bmp_depth = 0x01 then
      some (padPalette (buildPaletteSwizzled data count) count)
    else none

/-! ## Python slice / index semantics

Helpers for the byte-string slicing the library uses.  A slice bound may be
negative (counted from the end) and is clamped into `[0, len]`; a plain list
subscript raises `IndexError` outside `[-len, len)`. -/

/-- Resolve one slice bound the way Python does: negative bounds count from
the end (clamping at 0 via truncated `Nat` subtraction), non-negative bounds
are clamped at the length. -/
def pySliceIdx (len : Nat) (i : Int) : Nat :=
  if i < 0 then len - (-i).toNat else min i.toNat len

/-- `l[a:b]` for integer bounds `a`, `b`. -/
def pySlice (l : List Nat) (a b : Int) : List Nat :=
  (l.take (pySliceIdx l.length b)).drop (pySliceIdx l.length a)

/-- `l[i]` subscript resolution: `some` of the effective non-negative index,
or `none` for an `IndexError`. -/
def pyListIdx (len : Nat) (i : Int) : Option Nat :=
  if i < 0 then
    if (-i).toNat ≤ len then some (len - (-i).toNat) else none
  else
    if i.toNat < len then some i.toNat else none

/-- `chunks(l, n)`: successive `n`-sized chunks `l[i:i+n]` for
`i in range(0, len(l), n)`. -/
def chunks (l : List Nat) (n : Nat) : List (List Nat) :=
  (List.range ((l.length + n - 1) / n)).map fun i =>
    pySlice l ((i * n : Nat) : Int) ((i * n + n : Nat) : Int)

/-! ## Tile decoders (`MzpFile.extract_tile`) -/

/-- 24/32bpp branch, base 16-bit color of one pixel from the interleaved byte
pair `P = dec_buf[index*2]`, `Q = dec_buf[index*2 + 1]` (lines 280-282), as
the triple `(b, g, r)`:
`b = (P & 0x1f) << 3; g = (Q & 0x07) << 5 | (P & 0xe0) >> 3; r = Q & 0xf8`. -/
def tcBase (P Q : Nat) : Nat × Nat × Nat :=
  ((P &&& 0x1f) <<< 3,
   (Q &&& 0x07) <<< 5 ||| (P &&& 0xe0) >>> 3,
   Q &&& 0xf8)

/-- 24/32bpp branch, per-pixel correction from
`offset_byte = dec_buf[tile_size*2 + index]` (lines 285-288), as the triple
`(r_offset, g_offset, b_offset)`. -/
def tcOffsets (offset_byte : Nat) : Nat × Nat × Nat :=
  (offset_byte >>> 5, (offset_byte &&& 0x1f) >>> 3, offset_byte &&& 0x7)

/-- 24/32bpp branch, the corrected channels packed per pixel
(`pack('BBB', r + r_offset, g + g_offset, b + b_offset)`, lines 293-295),
as the triple `(r + r_offset, g + g_offset, b + b_offset)`. -/
def tcFinal (P Q offset_byte : Nat) : Nat × Nat × Nat :=
  ((tcBase P Q).2.2 + (tcOffsets offset_byte).1,
   (tcBase P Q).2.1 + (tcOffsets offset_byte).2.1,
   (tcBase P Q).1 + (tcOffsets offset_byte).2.2)

/-- HEP branch (`bmp_type in [0x0C]`, lines 298-306):
`image_data = dec_buf[32 : len(dec_buf) - 1024]`,
`image_palette = dec_buf[-1024:]`, then per index byte `i` the quad
`r, g, b, a = image_palette[i*4 : i*4+4]` is destructured (raising if the
slice does not hold exactly 4 bytes, modelled as `none`) and
`pack('BBB', r, g, b)` appended. -/
def hepDecode (dec_buf : List Nat) : Option (List Nat) := do
  let dec_buf_size := dec_buf.length
  let image_data := pySlice dec_buf 32 ((dec_buf_size : Int) - 1024)
  let image_palette := pySlice dec_buf (-1024) (dec_buf_size : Int)
  let pixels ← image_data.mapM fun i =>
    match pySlice image_palette ((4 * i : Nat) : Int) ((4 * i + 4 : Nat) : Int) with
    | [r, g, b, _a] => some [r, g, b]
    | _ => none
  return pixels.flatten

/-- Modelled from the spec: the HEP decode as the claim words it — the
trailing palette holds 256 *BGRA* quads and the decoder emits each looked-up
entry's R, G, B components *in R,G,B order* (so bytes 2, 1, 0 of the quad),
discarding the alpha byte.  Written only for comparison with `hepDecode`,
which is the embedding of the source. -/
def hepDecodeClaimed (dec_buf : List Nat) : Option (List Nat) := do
  let dec_buf_size := dec_buf.length
  let image_data := pySlice dec_buf 32 ((dec_buf_size : Int) - 1024)
  let image_palette := pySlice dec_buf (-1024) (dec_buf_size : Int)
  let pixels ← image_data.mapM fun i =>
    match pySlice image_palette ((4 * i : Nat) : Int) ((4 * i + 4 : Nat) : Int) with
    | [b, g, r, _a] => some [r, g, b]
    | _ => none
  return pixels.flatten

/-! ## Canvas compositor (`MzpFile.loop_data` / `MzpFile.loop_x`)

`rows` is the canvas (`self.rows`); a tile's decoded buffer is supplied by
`decBuf` (abstracting `extract_tile`).  An uncaught `IndexError` from the
subscript `self.rows[start_row + i - self.tile_crop]` on line 325 — which
sits *outside* the `try` block — aborts the run and is modelled as
`Except.error` carrying the offending row index. -/

/-- `__init__` line 143:
`self.rows = [b''] * (self.height - self.tile_y_count * self.tile_crop)`. -/
def initRows (hdr : Header) : List (List Nat) :=
  List.replicate (hdr.height - hdr.tileYCount * hdr.tileCrop) []

/-- `output_png` lines 339-340: the width declared in the IHDR chunk,
`self.width - self.tile_x_count * self.tile_crop * 2`. -/
def output_png_width (hdr : Header) : Nat :=
  hdr.width - hdr.tileXCount * hdr.tileCrop * 2

/-- `output_png` lines 339-340: the height declared in the IHDR chunk,
`self.height - self.tile_y_count * self.tile_crop * 2`. -/
def output_png_height (hdr : Header) : Nat :=
  hdr.height - hdr.tileYCount * hdr.tileCrop * 2

/-- Inner scanline loop of `loop_x` (lines 320-332) over the enumerated
chunks of one decoded tile:
skip while `i < tile_crop`; break once `(i - tile_crop) >= rowcount`;
otherwise subscript `self.rows[start_row + i - self.tile_crop]` (line 325,
outside the `try`: failure aborts), compute `px_count`, slice and append. -/
def procScanlines (hdr : Header) (bpx : Nat) (start_row rowcount : Int) :
    Nat → List (List Nat) → List (List Nat) → Except Int (List (List Nat))
  | _i, [], rows => .ok rows
  | i, chunk :: rest, rows =>
    if i < hdr.tileCrop then
      procScanlines hdr bpx start_row rowcount (i + 1) rest rows
    else if rowcount ≤ (i : Int) - (hdr.tileCrop : Int) then .ok rows
    else
      let idx : Int := start_row + (i : Int) - (hdr.tileCrop : Int)
      match pyListIdx rows.length idx with
      | none => .error idx
      | some n =>
        let cur_width := (rows.getD n []).length
        let px_count : Int :=
          ((min hdr.width (cur_width + hdr.tileWidth) : Nat) : Int) * (bpx : Int)
            - (cur_width : Int)
        let temp_row := pySlice chunk 0 px_count
        let piece := pySlice temp_row ((hdr.tileCrop * bpx : Nat) : Int)
          ((temp_row.length : Int) - ((hdr.tileCrop * bpx : Nat) : Int))
        procScanlines hdr bpx start_row rowcount (i + 1) rest
          (rows.set n ((rows.getD n []) ++ piece))

/-- `loop_x(y, start_row, rowcount)`: for each `x`, decode tile
`tile_x_count * y + x` and feed its chunks of `tile_width * bytesprepx`
bytes to the scanline loop. -/
def loop_x (hdr : Header) (bpx : Nat) (decBuf : Nat → List Nat) (y : Nat)
    (start_row rowcount : Int) (rows : List (List Nat)) :
    Except Int (List (List Nat)) :=
  (List.range hdr.tileXCount).foldlM (fun rows x =>
    procScanlines hdr bpx start_row rowcount 0
      (chunks (decBuf (hdr.tileXCount * y + x)) (hdr.tileWidth * bpx)) rows) rows

/-- `loop_data`: for each tile row `y`,
`start_row = y * (tile_height - tile_crop * 2)` and
`rowcount = min(height, start_row + tile_height) - start_row - tile_crop*2`
(both plain Python ints, hence `Int` here), then `loop_x`. -/
def loop_data (hdr : Header) (bpx : Nat) (decBuf : Nat → List Nat)
    (rows : List (List Nat)) : Except Int (List (List Nat)) :=
  (List.range hdr.tileYCount).foldlM (fun rows (y : Nat) =>
    let start_row : Int := (y : Int) * ((hdr.tileHeight : Int) - (hdr.tileCrop : Int) * 2)
    let rowcount : Int :=
      min (hdr.height : Int) (start_row + (hdr.tileHeight : Int)) - start_row
        - (hdr.tileCrop : Int) * 2
    loop_x hdr bpx decBuf y start_row rowcount rows) rows

/-! ## Concrete inputs used in counterexamples and witnesses -/

/-- An 8×8 image of 2×2 tiles of 4×4 with `tile_crop = 1`
(indexed 8bpp header). -/
def hdr1 : Header := ⟨8, 8, 4, 4, 2, 2, 0x01, 0x01, 1⟩

/-- Every tile decodes to 16 zero bytes (a full 4×4 tile at 1 byte/px). -/
def decBuf1 : Nat → List Nat := fun _ => List.replicate 16 0

/-- A 4×8 image of 1×3 tiles of 4×4 with `tile_crop = 1`
(indexed 8bpp header). -/
def hdr2 : Header := ⟨4, 8, 4, 4, 1, 3, 0x01, 0x01, 1⟩

/-- A palette byte stream whose byte at offset `o` is `o % 256`. -/
def dataEx : Nat → Nat := fun o => o % 256

/-- A decompressed HEP tile buffer: 32 header bytes, one index byte `0`, and
a trailing 1024-byte palette whose entry 0 is the quad `(10, 20, 30, 40)`. -/
def hepBufEx : List Nat :=
  List.replicate 32 7 ++ [0] ++ ([10, 20, 30, 40] ++ List.replicate 1020 0)

end Mzp

namespace Mzp

/-! ## Helper lemmas -/

/-- A `flatMap` whose chunks all have length 3 has length `3 * length`. -/
theorem flatMap_chunk3_length {α : Type} (f : α → List Nat)
    (h3 : ∀ a, (f a).length = 3) :
    ∀ l : List α, (l.flatMap f).length = 3 * l.length := by
  intro l
  induction l with
  | nil => rfl
  | cons a l ih =>
    rw [List.flatMap_cons, List.length_append, h3, ih, List.length_cons]
    ring

/-- The RGB projection built over a list of entry offsets is three bytes per
entry. -/
theorem paletteOfOffsets_png_length (data : Nat → Nat) (offsets : List Nat) :
    (paletteOfOffsets data offsets).png.length = 3 * offsets.length := by
  unfold paletteOfOffsets
  apply flatMap_chunk3_length
  intro a
  rfl

/-- The alpha projection built over a list of entry offsets is one byte per
entry. -/
theorem paletteOfOffsets_trans_length (data : Nat → Nat) (offsets : List Nat) :
    (paletteOfOffsets data offsets).trans.length = offsets.length := by
  unfold paletteOfOffsets
  exact List.length_map _ _

/-- The padding loop's RGB bytes form a run of zeros. -/
theorem range_flatMap_triple (c : Nat) :
    ∀ n : Nat, ((List.range n).flatMap fun _ => [c, c, c]) = List.replicate (3 * n) c := by
  intro n
  induction n with
  | zero => rfl
  | succ n ih =>
    rw [List.range_succ, List.flatMap_append, ih, Nat.mul_succ, List.replicate_add]
    rfl

/-- `getD` into a replicate run. -/
theorem getD_replicate_of_lt (n m c d : Nat) (h : m < n) :
    (List.replicate n c).getD m d = c := by
  rw [List.getD_eq_getElem?_getD, List.getElem?_replicate, if_pos h]
  rfl

/-- Lengths and beyond-`count` contents of a padded palette, given the
lengths of the part actually read from the container. -/
theorem padded_black (base : Palette) (count : Nat)
    (hpng : base.png.length = 3 * count) (htrans : base.trans.length = count)
    (hcount : count ≤ 256) :
    (padPalette base count).png.length = 768 ∧
    (padPalette base count).trans.length = 256 ∧
    ∀ k, count ≤ k → k < 256 →
      (padPalette base count).png.getD (3 * k) 9 = 0 ∧
      (padPalette base count).png.getD (3 * k + 1) 9 = 0 ∧
      (padPalette base count).png.getD (3 * k + 2) 9 = 0 ∧
      (padPalette base count).trans.getD k 9 = 255 := by
  unfold padPalette
  dsimp only
  rw [range_flatMap_triple, List.map_const', List.length_range]
  refine ⟨?_, ?_, ?_⟩
  · rw [List.length_append, hpng, List.length_replicate]; omega
  · rw [List.length_append, htrans, List.length_replicate]; omega
  · intro k hk hk'
    refine ⟨?_, ?_, ?_, ?_⟩
    · rw [List.getD_append_right _ _ _ _ (by omega), hpng,
        getD_replicate_of_lt _ _ _ _ (by omega)]
    · rw [List.getD_append_right _ _ _ _ (by omega), hpng,
        getD_replicate_of_lt _ _ _ _ (by omega)]
    · rw [List.getD_append_right _ _ _ _ (by omega), hpng,
        getD_replicate_of_lt _ _ _ _ (by omega)]
    · rw [List.getD_append_right _ _ _ _ (by omega), htrans,
        getD_replicate_of_lt _ _ _ _ (by omega)]

/-- `padded_black` specialised to a palette built from an offsets list. -/
theorem padded_paletteOfOffsets_black (data : Nat → Nat) (offsets : List Nat)
    (count : Nat) (hlen : offsets.length = count) (hcount : count ≤ 256) :
    (padPalette (paletteOfOffsets data offsets) count).png.length = 768 ∧
    (padPalette (paletteOfOffsets data offsets) count).trans.length = 256 ∧
    ∀ k, count ≤ k → k < 256 →
      (padPalette (paletteOfOffsets data offsets) count).png.getD (3 * k) 9 = 0 ∧
      (padPalette (paletteOfOffsets data offsets) count).png.getD (3 * k + 1) 9 = 0 ∧
      (padPalette (paletteOfOffsets data offsets) count).png.getD (3 * k + 2) 9 = 0 ∧
      (padPalette (paletteOfOffsets data offsets) count).trans.getD k 9 = 255 :=
  padded_black _ _ (by rw [paletteOfOffsets_png_length, hlen])
    (by rw [paletteOfOffsets_trans_length, hlen]) hcount

/-- The scanline loop never changes the number of canvas rows. -/
theorem procScanlines_length (hdr : Header) (bpx : Nat) (start_row rowcount : Int)
    (cs : List (List Nat)) :
    ∀ (i : Nat) (rows rows' : List (List Nat)),
      procScanlines hdr bpx start_row rowcount i cs rows = Except.ok rows' →
      rows'.length = rows.length := by
  induction cs with
  | nil =>
    intro i rows rows' h
    simp only [procScanlines] at h
    injection h with h
    rw [← h]
  | cons chunk rest ih =>
    intro i rows rows' h
    simp only [procScanlines] at h
    split at h
    · exact ih (i + 1) rows rows' h
    · split at h
      · injection h with h
        rw [← h]
      · split at h
        · exact Except.noConfusion h
        · have hlen := ih (i + 1) _ rows' h
          rw [hlen, List.length_set]

/-- A `foldlM` in the `Except` monad whose step preserves the row count
preserves the row count. -/
theorem foldlM_rows_length {α : Type}
    (f : List (List Nat) → α → Except Int (List (List Nat)))
    (hf : ∀ rows a rows', f rows a = Except.ok rows' → rows'.length = rows.length)
    (l : List α) :
    ∀ rows rows', l.foldlM f rows = Except.ok rows' → rows'.length = rows.length := by
  induction l with
  | nil =>
    intro rows rows' h
    simp only [List.foldlM_nil] at h
    injection h with h
    rw [← h]
  | cons a l ih =>
    intro rows rows' h
    rw [List.foldlM_cons] at h
    cases hfa : f rows a with
    | error e =>
      rw [hfa] at h
      exact Except.noConfusion (show (Except.error e : Except Int (List (List Nat))) =
        Except.ok rows' from h)
    | ok mid =>
      rw [hfa] at h
      have h2 : List.foldlM f mid l = Except.ok rows' := h
      rw [ih mid rows' h2, hf rows a mid hfa]

/-- `loop_x` never changes the number of canvas rows. -/
theorem loop_x_length (hdr : Header) (bpx : Nat) (decBuf : Nat → List Nat) (y : Nat)
    (start_row rowcount : Int) (rows rows' : List (List Nat))
    (h : loop_x hdr bpx decBuf y start_row rowcount rows = Except.ok rows') :
    rows'.length = rows.length :=
  foldlM_rows_length _
    (fun r _ r' hr => procScanlines_length hdr bpx start_row rowcount _ 0 r r' hr)
    _ rows rows' h

/-- `loop_data` never changes the number of canvas rows. -/
theorem loop_data_length (hdr : Header) (bpx : Nat) (decBuf : Nat → List Nat)
    (rows rows' : List (List Nat))
    (h : loop_data hdr bpx decBuf rows = Except.ok rows') :
    rows'.length = rows.length :=
  foldlM_rows_length _
    (fun r y r' hr => loop_x_length hdr bpx decBuf y _ _ r r' hr)
    _ rows rows' h

/-! ## Claims -/

/-- C2 (code behavior at the failing input): on header `hdr2`
(height 8, 3 tile rows of height 4, crop 1) the canvas has
`8 - 3*1 = 5` rows, and tile row `y = 2` targets canvas row
`4 + 2 - 1 = 5`, one past the last allocated row.  The run aborts with an
uncaught `IndexError` (modelled as `Except.error 5`) raised by the
`len(self.rows[...])` subscript on line 325, which sits outside the
`try` block — the scanline is not logged-and-dropped and the run does not
continue, contrary to the claim. -/
theorem claim2_code_behavior :
    loop_data hdr2 1 decBuf1 (initRows hdr2) = Except.error 5 := by rfl

/-- C3 (counterexample): the claim predicts that within block 0 the four
0x20-byte sub-blocks are visited at physical offsets 0x00, 0x20, 0x40, 0x60
in that order, i.e. that logical entry 8 (first entry of the second visited
sub-block) is read at offset 0x20.  In the code the loop order and the seek
formula `(i + j*2)*0x20` (outer `i`, inner `j`) put logical entry 8 at
physical offset 0x40 and logical entry 16 at 0x20. -/
theorem claim3_counterexample :
    (swizzledByteOffsets 0x100).getD 8 9999 = 0x40 ∧
    (swizzledByteOffsets 0x100).getD 16 9999 = 0x20 ∧ (0x40 : Nat) ≠ 0x20 := by
  refine ⟨by decide, by decide, by decide⟩

/-- C3 (amended): the builder traverses `blockIndex`, then the outer loop
index, then the inner loop index, then 8 entries per sub-block, reading the
sub-block at physical offset `blockIndex*0x80 + (outer + inner*2)*0x20`;
consequently within each 0x80-byte block the four sub-blocks are visited at
physical offsets 0x00, 0x40, 0x20, 0x60 in that order.  Closed form for the
byte offset of logical entry `n` of a 256-entry palette. -/
theorem claim3_amended_order :
    ∀ n, n < 256 →
      (swizzledByteOffsets 0x100).getD n 9999 =
        n / 32 * 0x80 + n % 32 / 8 % 2 * 0x40 + n % 32 / 8 / 2 * 0x20 + n % 8 * 4 := by
  decide

/-- Witness for `claim3_amended_order` at `n = 8`. -/
theorem claim3_witness :
    8 < 256 ∧ (swizzledByteOffsets 0x100).getD 8 9999 =
      8 / 32 * 0x80 + 8 % 32 / 8 % 2 * 0x40 + 8 % 32 / 8 / 2 * 0x20 + 8 % 8 * 4 :=
  ⟨by decide, claim3_amended_order 8 (by decide)⟩

/-- C4 (counterexample): for `bmp_depth = 0x01` the palette is *not* read
sequentially: on the stream whose byte at offset `o` is `o % 256`, the
constructed RGB projection has byte 24 (the first byte of logical entry 8)
equal to 64 — entry 8 is read at physical offset 0x40 — whereas a linear
256-entry read (the code's own `[0x00, 0x10]` branch) would give 32. -/
theorem claim4_counterexample :
    ((buildPalette 0x01 dataEx).getD ⟨[], [], []⟩).png.getD 24 9 = 64 ∧
    (padPalette (buildPaletteLinear dataEx 0x100) 0x100).png.getD 24 9 = 32 ∧
    (64 : Nat) ≠ 32 := by
  refine ⟨by decide, by decide, by decide⟩

/-- C4 (amended): for bitmapType 0x01 with bitmapDepth 0x01 the header
derivation yields 8 bits per pixel and a 256-entry palette, but the 256
entries are read through the block (RGBATim2) branch — exactly as for
depths 0x11 and 0x91 — not sequentially. -/
theorem claim4_amended :
    indexedPaletteCount 0x01 = some (8, 0x100) ∧
    ∀ data : Nat → Nat, buildPalette 0x01 data = buildPalette 0x11 data :=
  ⟨rfl, fun _ => rfl⟩

/-- C5 (counterexample): the input byte pair `P = 0xF8`, `Q = 0x00` does
*not* yield base `b = g = r = 0`: the code computes
`b = (0xF8 & 0x1F) << 3 = 192`, `g = (0xF8 & 0xE0) >> 3 = 28`, `r = 0`,
and with correction byte 0xFF the final pixel is `(r, g, b) = (7, 31, 199)`,
not `(7, 3, 7)`. -/
theorem claim5_counterexample :
    tcBase 0xF8 0x00 = (192, 28, 0) ∧ ((192, 28, 0) : Nat × Nat × Nat) ≠ (0, 0, 0) ∧
    tcFinal 0xF8 0x00 0xFF = (7, 31, 199) ∧
    ((7, 31, 199) : Nat × Nat × Nat) ≠ (7, 3, 7) := by
  refine ⟨by decide, by decide, by decide, by decide⟩

/-- C5 (amended): the input byte pair `P = 0x00`, `Q = 0x00` yields base
`b = 0, g = 0, r = 0` (the triple `tcBase` is `(b, g, r)`), and together
with a correction byte of 0xFF the final decoded pixel is
`r = 7, g = 3, b = 7` (the triple `tcFinal` is `(r, g, b)`). -/
theorem claim5_amended :
    tcBase 0x00 0x00 = (0, 0, 0) ∧ tcFinal 0x00 0x00 0xFF = (7, 3, 7) := by
  refine ⟨by decide, by decide⟩

/-- C6 (code behavior at the failing input): for bitmapType 0x0C with a
depth other than 0x11 (here 0x14) `extract_desc` does *not* fail with
`UnknownBitmapDepth` — the `bmp_type == 0x0C` branch has no `else` — and
header parsing completes with `bitmap_bpp` never assigned; the run then
dies past header parsing, at `self.bitmap_bpp // 8` in `__init__`
(an `AttributeError`, modelled by `initBytesPerPx none = none`).  The
sibling branch for type 0x08 shows the check the 0x0C branch is missing. -/
theorem claim6_code_behavior :
    extract_desc_bpp 0x0C 0x14 = Except.ok none ∧
    (extract_desc_bpp 0x0C 0x14 ≠ Except.error FormatError.unknownDepth) ∧
    extract_desc_bpp 0x0C 0x11 = Except.ok (some 24) ∧
    extract_desc_bpp 0x08 0x15 = Except.error FormatError.unknownDepth ∧
    initBytesPerPx none = none := by
  refine ⟨by rfl, fun h => Except.noConfusion h, by rfl, by rfl, by rfl⟩

/-- C7 (confirmed): the palette builder stores the remapped alpha
`expand(a) = a*2 + (a >> 6)` for `a < 128` and `255` otherwise; in
particular `expand(0) = 0`, `expand(127) = 255`, and `expand(a) = 255` for
every byte `a ≥ 128`; and the alpha projection of the linear palette read
stores exactly `expand` of the raw alpha byte of each entry. -/
theorem claim7_alpha_expand :
    (∀ a, a < 256 → expandAlpha a = if a < 128 then a * 2 + a / 2 ^ 6 else 255) ∧
    expandAlpha 0 = 0 ∧ expandAlpha 127 = 255 ∧
    (∀ a, 128 ≤ a → a < 256 → expandAlpha a = 255) ∧
    (∀ (data : Nat → Nat) (count i : Nat), i < count →
      (buildPaletteLinear data count).trans.getD i 9 = expandAlpha (data (4 * i + 3))) := by
  refine ⟨fun a _ => ?_, rfl, rfl, fun a ha _ => ?_, fun data count i hi => ?_⟩
  · unfold expandAlpha
    rw [Nat.shiftLeft_eq, Nat.shiftRight_eq_div_pow]
  · unfold expandAlpha
    rw [if_neg (by omega)]
  · unfold buildPaletteLinear paletteOfOffsets linearByteOffsets
    dsimp only
    rw [List.map_map, List.getD_eq_getElem?_getD, List.getElem?_map,
      List.getElem?_range hi]
    rfl

/-- Witness for `claim7_alpha_expand` at `a = 127` and at entry 2 of a
16-entry linear palette over the constant-3 stream. -/
theorem claim7_witness :
    expandAlpha 127 = (if (127 : Nat) < 128 then 127 * 2 + 127 / 2 ^ 6 else 255) ∧
    (buildPaletteLinear (fun _ => 3) 16).trans.getD 2 9 =
      expandAlpha ((fun _ => (3 : Nat)) (4 * 2 + 3)) :=
  ⟨claim7_alpha_expand.1 127 (by decide),
   claim7_alpha_expand.2.2.2.2 (fun _ => 3) 16 2 (by decide)⟩

/-- C8 (confirmed): in the 24/32bpp true-color decode, for all byte inputs
`P`, `Q` and correction byte `c`, each corrected channel
`r + (c >> 5)`, `g + ((c & 0x1F) >> 3)`, `b + (c & 0x07)` stays `≤ 255`,
so `pack('B', ...)` of each corrected channel never overflows. -/
theorem claim8_no_overflow (P Q c : Nat) (hP : P < 256) (hQ : Q < 256)
    (hc : c < 256) :
    (tcFinal P Q c).1 ≤ 255 ∧ (tcFinal P Q c).2.1 ≤ 255 ∧
      (tcFinal P Q c).2.2 ≤ 255 := by
  have horb : ∀ u : Nat, u < 8 → ∀ v : Nat, v < 29 → (u <<< 5 ||| v) ≤ 252 := by decide
  unfold tcFinal tcBase tcOffsets
  dsimp only
  have h1 : Q &&& 0xf8 ≤ 0xf8 := Nat.and_le_right
  have h2 : c >>> 5 ≤ 7 := by
    rw [Nat.shiftRight_eq_div_pow]
    have : c / 2 ^ 5 ≤ 255 / 2 ^ 5 := Nat.div_le_div_right (by omega)
    norm_num at this
    omega
  have h3 : Q &&& 0x07 < 8 := by
    have : Q &&& 0x07 ≤ 0x07 := Nat.and_le_right
    omega
  have h4 : (P &&& 0xe0) >>> 3 < 29 := by
    rw [Nat.shiftRight_eq_div_pow]
    have ha : P &&& 0xe0 ≤ 0xe0 := Nat.and_le_right
    have : (P &&& 0xe0) / 2 ^ 3 ≤ 0xe0 / 2 ^ 3 := Nat.div_le_div_right ha
    norm_num at this
    omega
  have h5 := horb _ h3 _ h4
  have h6 : (c &&& 0x1f) >>> 3 ≤ 3 := by
    rw [Nat.shiftRight_eq_div_pow]
    have ha : c &&& 0x1f ≤ 0x1f := Nat.and_le_right
    have : (c &&& 0x1f) / 2 ^ 3 ≤ 0x1f / 2 ^ 3 := Nat.div_le_div_right ha
    norm_num at this
    omega
  have h7 : (P &&& 0x1f) <<< 3 ≤ 248 := by
    rw [Nat.shiftLeft_eq]
    have : P &&& 0x1f ≤ 0x1f := Nat.and_le_right
    norm_num
    omega
  have h8 : c &&& 0x7 ≤ 7 := Nat.and_le_right
  exact ⟨by omega, by omega, by omega⟩

/-- Witness for `claim8_no_overflow` at `P = 0x12`, `Q = 0x34`,
`c = 0xFE`. -/
theorem claim8_witness :
    (tcFinal 0x12 0x34 0xFE).1 ≤ 255 ∧ (tcFinal 0x12 0x34 0xFE).2.1 ≤ 255 ∧
      (tcFinal 0x12 0x34 0xFE).2.2 ≤ 255 :=
  claim8_no_overflow 0x12 0x34 0xFE (by decide) (by decide) (by decide)

/-- C1 (counterexample): on `hdr1` (8×8 image, 2×2 tiles of 4×4, crop 1)
the run succeeds and the canvas handed to `output_png` has
`height - tileCountY*tileCrop = 6` rows, while the height written in the
IHDR chunk is `height - 2*tileCrop*tileCountY = 4`. -/
theorem claim1_counterexample :
    (loop_data hdr1 1 decBuf1 (initRows hdr1)).toOption.isSome = true ∧
    ((loop_data hdr1 1 decBuf1 (initRows hdr1)).toOption.getD []).length = 6 ∧
    output_png_height hdr1 = 4 ∧ (6 : Nat) ≠ 4 := by
  refine ⟨by rfl, by rfl, by rfl, by decide⟩

/-- C1 (amended): for every run whose compositor loop completes without an
uncaught `IndexError`, the canvas handed to the Raster Encoder consists of
exactly `height - tileCrop*tileCountY` scanline rows (the allocation uses a
*single* crop factor); this equals the declared output height
`height - 2*tileCrop*tileCountY` when `tileCrop*tileCountY = 0`, and
differs in general.  (`0 < tileWidth*bytesPerPx` keeps the Python chunking
well defined.) -/
theorem claim1_amended (hdr : Header) (bpx : Nat) (decBuf : Nat → List Nat)
    (rows : List (List Nat)) (hn : 0 < hdr.tileWidth * bpx)
    (h : loop_data hdr bpx decBuf (initRows hdr) = Except.ok rows) :
    rows.length = hdr.height - hdr.tileYCount * hdr.tileCrop ∧
    (hdr.tileYCount * hdr.tileCrop = 0 → rows.length = output_png_height hdr) := by
  have hl := loop_data_length hdr bpx decBuf (initRows hdr) rows h
  rw [initRows, List.length_replicate] at hl
  refine ⟨hl, fun h0 => ?_⟩
  rw [hl, output_png_height]
  omega

/-- Witness for `claim1_amended` at the concrete run on `hdr1`. -/
theorem claim1_witness :
    0 < hdr1.tileWidth * 1 ∧
    ((loop_data hdr1 1 decBuf1 (initRows hdr1)).toOption.getD []).length =
      hdr1.height - hdr1.tileYCount * hdr1.tileCrop :=
  ⟨by decide, (claim1_amended hdr1 1 decBuf1
    ((loop_data hdr1 1 decBuf1 (initRows hdr1)).toOption.getD [])
    (by decide) (by rfl)).1⟩

/-! Slice computation helpers for the HEP decoder. -/

/-- `pySliceIdx` at a non-negative bound. -/
theorem pySliceIdx_ofNat (len i : Nat) : pySliceIdx len (i : Int) = min i len := by
  unfold pySliceIdx
  rw [if_neg (by omega)]
  omega

/-- The four bytes of a length-4 Python slice `l[m : m+4]`. -/
theorem take_drop_four (l : List Nat) (m : Nat) (h : m + 4 ≤ l.length) :
    (l.take (m + 4)).drop m =
      [l.getD m 0, l.getD (m + 1) 0, l.getD (m + 2) 0, l.getD (m + 3) 0] := by
  have hlen : ((l.take (m + 4)).drop m).length = 4 := by
    rw [List.length_drop, List.length_take]
    omega
  apply List.ext_getElem
  · rw [hlen]
    rfl
  · intro n h₁ h₂
    have hn : n < 4 := hlen ▸ h₁
    rw [List.getElem_drop, List.getElem_take]
    interval_cases n
    · simp [List.getElem?_eq_getElem (show m < l.length by omega)]
    · simp [List.getElem?_eq_getElem (show m + 1 < l.length by omega)]
    · simp [List.getElem?_eq_getElem (show m + 2 < l.length by omega)]
    · simp [List.getElem?_eq_getElem (show m + 3 < l.length by omega)]

/-- `mapM` over `Option` of a function that succeeds on every element. -/
theorem mapM_option_of_forall {α β : Type} (f : α → Option β) (g : α → β) :
    ∀ l : List α, (∀ a ∈ l, f a = some (g a)) → l.mapM f = some (l.map g) := by
  intro l
  induction l with
  | nil => intro _; rfl
  | cons a l ih =>
    intro hmem
    rw [List.mapM_cons, hmem a (List.mem_cons_self a l),
      ih fun x hx => hmem x (List.mem_cons_of_mem a hx)]
    rfl

/-- C9 (counterexample): on a well-formed HEP buffer whose palette entry 0
is the quad `(10, 20, 30, 40)` and whose single index byte is 0, the code
emits the quad's first three bytes in storage order, `[10, 20, 30]`; the
claim — BGRA quads emitted as R,G,B in R,G,B order — would give
`[30, 20, 10]`. -/
theorem claim9_counterexample :
    hepDecode hepBufEx = some [10, 20, 30] ∧
    hepDecodeClaimed hepBufEx = some [30, 20, 10] ∧
    (some [10, 20, 30] : Option (List Nat)) ≠ some [30, 20, 10] := by
  refine ⟨by rfl, by rfl, by decide⟩

/-- C9 (amended): for every HEP tile buffer of shape
`[32 header bytes][index bytes][1024 palette bytes]` with byte-valued
indices, the decoder ignores the 32 header bytes, looks each index byte up
in the trailing 1024-byte palette of 256 four-byte entries, and emits per
pixel exactly the looked-up entry's first three bytes *in storage order*
(the fourth byte, the per-tile alpha, is discarded).  If the quads are
BGRA as the spec says, the emitted triple is therefore B,G,R. -/
theorem claim9_amended (header idxs pal : List Nat)
    (hh : header.length = 32) (hp : pal.length = 1024)
    (hi : ∀ i ∈ idxs, i < 256) :
    hepDecode (header ++ idxs ++ pal) =
      some (idxs.flatMap fun i =>
        [pal.getD (4 * i) 0, pal.getD (4 * i + 1) 0, pal.getD (4 * i + 2) 0]) := by
  have hL : (header ++ idxs ++ pal).length = 32 + (idxs.length + 1024) := by
    rw [List.length_append, List.length_append, hh, hp]
    omega
  have hstart : pySliceIdx (header ++ idxs ++ pal).length 32 = 32 := by
    unfold pySliceIdx
    rw [if_neg (by omega), hL]
    omega
  have hstop : pySliceIdx (header ++ idxs ++ pal).length
      (((header ++ idxs ++ pal).length : Int) - 1024) = 32 + idxs.length := by
    unfold pySliceIdx
    rw [hL, if_neg (by omega)]
    omega
  have hneg : pySliceIdx (header ++ idxs ++ pal).length (-1024) = 32 + idxs.length := by
    unfold pySliceIdx
    rw [if_pos (by omega), hL]
    omega
  have hfull : pySliceIdx (header ++ idxs ++ pal).length
      ((header ++ idxs ++ pal).length : Int) = (header ++ idxs ++ pal).length := by
    unfold pySliceIdx
    rw [if_neg (by omega)]
    omega
  have hdata : pySlice (header ++ idxs ++ pal) 32
      (((header ++ idxs ++ pal).length : Int) - 1024) = idxs := by
    unfold pySlice
    rw [hstop, hstart,
      List.take_left' (by rw [List.length_append, hh]), List.drop_left' hh]
  have hpal : pySlice (header ++ idxs ++ pal) (-1024)
      ((header ++ idxs ++ pal).length : Int) = pal := by
    unfold pySlice
    rw [hneg, hfull, List.take_length,
      List.drop_left' (by rw [List.length_append, hh])]
  have hquad : ∀ i ∈ idxs,
      (match pySlice pal ((4 * i : Nat) : Int) ((4 * i + 4 : Nat) : Int) with
        | [r, g, b, _a] => some [r, g, b]
        | _ => none) =
      some [pal.getD (4 * i) 0, pal.getD (4 * i + 1) 0, pal.getD (4 * i + 2) 0] := by
    intro i hmem
    have hi' := hi i hmem
    have hslice : pySlice pal ((4 * i : Nat) : Int) ((4 * i + 4 : Nat) : Int) =
        [pal.getD (4 * i) 0, pal.getD (4 * i + 1) 0, pal.getD (4 * i + 2) 0,
         pal.getD (4 * i + 3) 0] := by
      unfold pySlice
      rw [pySliceIdx_ofNat, pySliceIdx_ofNat,
        min_eq_left (by omega), min_eq_left (by omega)]
      exact take_drop_four pal (4 * i) (by omega)
    rw [hslice]
  unfold hepDecode
  dsimp only
  rw [hdata, hpal, mapM_option_of_forall _
    (fun i => [pal.getD (4 * i) 0, pal.getD (4 * i + 1) 0, pal.getD (4 * i + 2) 0])
    idxs hquad]
  show some _ = some _
  exact congrArg some (List.flatMap_def idxs _).symm

/-- Witness for `claim9_amended` on a one-pixel tile with a constant
palette. -/
theorem claim9_witness :
    (List.replicate 32 0).length = 32 ∧ (List.replicate 1024 5).length = 1024 ∧
    hepDecode (List.replicate 32 0 ++ [1] ++ List.replicate 1024 5) =
      some ([1].flatMap fun i =>
        [(List.replicate 1024 5).getD (4 * i) 0,
         (List.replicate 1024 5).getD (4 * i + 1) 0,
         (List.replicate 1024 5).getD (4 * i + 2) 0]) :=
  ⟨by simp, by simp,
   claim9_amended (List.replicate 32 0) [1] (List.replicate 1024 5)
     (by simp) (by simp) (by decide)⟩

/-- C10 (confirmed): for every indexed bitmap with an accepted depth the
constructed palette projections have exactly length 768 (RGB) and 256
(alpha), and every logical entry at index ≥ `palette_count` is the padded
default black with full alpha (`r = g = b = 0`, `a = 255`). -/
theorem claim10_palette_padding (d : Nat) (data : Nat → Nat) (pal : Palette)
    (bpp count : Nat) (hc : indexedPaletteCount d = some (bpp, count))
    (hp : buildPalette d data = some pal) :
    pal.png.length = 768 ∧ pal.trans.length = 256 ∧
    ∀ k, count ≤ k → k < 256 →
      pal.png.getD (3 * k) 9 = 0 ∧ pal.png.getD (3 * k + 1) 9 = 0 ∧
      pal.png.getD (3 * k + 2) 9 = 0 ∧ pal.trans.getD k 9 = 255 := by
  unfold buildPalette at hp
  rw [hc] at hp
  dsimp only at hp
  unfold indexedPaletteCount at hc
  split_ifs at hc with h1 h2 h3
  · subst h1
    injection hc with h
    obtain ⟨rfl, rfl⟩ := Prod.mk.inj h
    rw [if_neg (by decide), if_pos (by decide)] at hp
    injection hp with hp
    subst hp
    unfold buildPaletteSwizzled
    exact padded_paletteOfOffsets_black data _ 0x100 (by decide) (by decide)
  · injection hc with h
    obtain ⟨rfl, rfl⟩ := Prod.mk.inj h
    rcases h2 with rfl | rfl
    · rw [if_pos (by decide)] at hp
      injection hp with hp
      subst hp
      unfold buildPaletteLinear
      exact padded_paletteOfOffsets_black data _ 0x10 (by decide) (by decide)
    · rw [if_pos (by decide)] at hp
      injection hp with hp
      subst hp
      unfold buildPaletteLinear
      exact padded_paletteOfOffsets_black data _ 0x10 (by decide) (by decide)
  · injection hc with h
    obtain ⟨rfl, rfl⟩ := Prod.mk.inj h
    rcases h3 with rfl | rfl
    · rw [if_neg (by decide), if_pos (by decide)] at hp
      injection hp with hp
      subst hp
      unfold buildPaletteSwizzled
      exact padded_paletteOfOffsets_black data _ 0x100 (by decide) (by decide)
    · rw [if_neg (by decide), if_pos (by decide)] at hp
      injection hp with hp
      subst hp
      unfold buildPaletteSwizzled
      exact padded_paletteOfOffsets_black data _ 0x100 (by decide) (by decide)

/-- Witness for `claim10_palette_padding` on a 16-entry (4bpp) palette over
the all-zero stream. -/
theorem claim10_witness :
    ((buildPalette 0x00 (fun _ => 0)).getD ⟨[], [], []⟩).png.length = 768 ∧
    ((buildPalette 0x00 (fun _ => 0)).getD ⟨[], [], []⟩).trans.getD 20 9 = 255 :=
  have h := claim10_palette_padding 0x00 (fun _ => 0)
    ((buildPalette 0x00 (fun _ => 0)).getD ⟨[], [], []⟩) 4 0x10 (by rfl) (by rfl)
  ⟨h.1, (h.2.2 20 (by decide) (by decide)).2.2.2⟩

